import Mathlib

/-!
Shallow embedding of the obsidian-timestamps-block plugin core
(src/block-detector.ts, src/timestamp-service.ts, src/main.ts).

A document is the list of its lines; the editor interface `getLine` /
`lineCount` is modelled over that list (out-of-range reads yield "" as a
neutral value, matching the loops in the source which never depend on
out-of-range content).  JavaScript string primitives used by the source
(`trim`, `trimStart`, `startsWith`, `indexOf(pat, from)`, `toLowerCase`,
the few regexes) are embedded as executable functions over the character
list of a `String`.  The current timestamp produced by `window.moment()`
is an opaque input: every function of the timestamp service and of the
line rewriter takes the formatted time string `ts` as a parameter.
The JavaScript regex engine used by `matchesHeaderPattern` is likewise an
opaque parameter `eng : String → Option (String → Bool)`: `eng pat = none`
models `new RegExp(pat)` throwing (invalid pattern), `some test` models a
successfully compiled regex.
-/

/-- JS `String.prototype.trimStart`: drop leading whitespace characters. -/
def trimStartStr (s : String) : String :=
  ⟨s.data.dropWhile Char.isWhitespace⟩

/-- The leading-whitespace run of a line, JS `line.match(/^(\s*)/)[1]`. -/
def leadingWS (s : String) : String :=
  ⟨s.data.takeWhile Char.isWhitespace⟩

/-- JS `String.prototype.trim`: drop leading and trailing whitespace. -/
def trimStr (s : String) : String :=
  ⟨((s.data.dropWhile Char.isWhitespace).reverse.dropWhile Char.isWhitespace).reverse⟩

/-- JS `String.prototype.toLowerCase` (ASCII fragment). -/
def lowerStr (s : String) : String :=
  ⟨s.data.map Char.toLower⟩

/-- JS `a.startsWith(b)`. -/
def strStartsWith (s pat : String) : Bool :=
  pat.data.isPrefixOf s.data

/-- JS `s.indexOf(pat, start)`: the least index `k ≥ start` at which `pat`
occurs in `s`, and `-1` when there is none. -/
def indexOfFrom (s pat : String) (start : Nat) : Int :=
  if pat = "" then ((min start s.length : Nat) : Int)
  else
    match (List.range (s.length + 1)).find?
        (fun k => decide (start ≤ k ∧ pat.data.isPrefixOf (s.data.drop k))) with
    | some k => (k : Int)
    | none => -1

/-- `blockIdentifier` values (src/types.ts `BlockIdentifier`). -/
inductive BlockIdentifier where
  | header
  | fence
  | both
deriving DecidableEq

/-- Plugin settings (src/types.ts `TimestampBlockSettings`).  The two
fields wrapping the formatted time are named `timestampPre` and
`timestampSuf` here; in the source they are called timestampPrefix and
timestampSuffix. -/
structure TimestampBlockSettings where
  timestampFormat : String
  blockIdentifier : BlockIdentifier
  headerText : String
  useAdvancedHeaderPattern : Bool
  headerPattern : String
  fenceLanguage : String
  timestampPre : String
  timestampSuf : String
  autoTimestamp : Bool
  includeOnEmptyLine : Bool
deriving DecidableEq

/-- src/types.ts `DEFAULT_SETTINGS`. -/
def DEFAULT_SETTINGS : TimestampBlockSettings where
  timestampFormat := "YYYY-MM-DD HH:mm"
  blockIdentifier := .header
  headerText := "## Log"
  useAdvancedHeaderPattern := false
  headerPattern := "^#\x7b1,6\x7d\\s*(log|journal|notes|timestamps?)\\s*$"
  fenceLanguage := "timestamp-log"
  timestampPre := "["
  timestampSuf := "] "
  autoTimestamp := true
  includeOnEmptyLine := false

/-- src/timestamp-service.ts `createFullTimestamp`, with the formatted
time `ts` (the source's `this.formatTimestamp()`) passed explicitly. -/
def createFullTimestamp (s : TimestampBlockSettings) (ts : String) : String :=
  s.timestampPre ++ ts ++ s.timestampSuf

/-- src/timestamp-service.ts `createTimestampedLine`. -/
def createTimestampedLine (s : TimestampBlockSettings) (ts content : String) : String :=
  createFullTimestamp s ts ++ content

/-- src/timestamp-service.ts `lineHasTimestamp`. -/
def lineHasTimestamp (s : TimestampBlockSettings) (line : String) : Bool :=
  let trimmed := trimStartStr line
  let pre := s.timestampPre
  if pre = "" then false
  else if strStartsWith trimmed pre = false then false
  else
    let suf := s.timestampSuf
    if suf = "" then true
    else
      let suffixIndex := indexOfFrom trimmed suf pre.length
      decide ((pre.length : Int) < suffixIndex ∧ suffixIndex < 50)

/-- The list-marker match of src/main.ts: `content.match(/^([-*+]|\d+\.)\s*/)`,
returning the whole match (marker plus its trailing whitespace) when the
content starts with `-`, `*`, `+`, or a digit run followed by `.`.
Backtracking note: `\d+` needs to be followed by `.`, and no shorter digit
run can expose a `.` (a `.` is not a digit), so taking the maximal digit
run is exact. -/
def matchListMarker (content : String) : Option String :=
  match content.data with
  | [] => none
  | c :: rest =>
    if c = '-' ∨ c = '*' ∨ c = '+' then
      some ⟨c :: rest.takeWhile Char.isWhitespace⟩
    else if c.isDigit then
      let digits := (c :: rest).takeWhile Char.isDigit
      match (c :: rest).drop digits.length with
      | '.' :: rest2 => some ⟨digits ++ '.' :: rest2.takeWhile Char.isWhitespace⟩
      | _ => none
    else none

/-- src/main.ts `insertTimestampOnLine` (the CodeMirror-6 entry point),
as the pure rewrite it performs on the text of the target line: `none`
models the early return that writes nothing back, `some (text, caret)`
models `setLine`/`setCursor` with the new line text and cursor column. -/
def insertTimestampOnLine (s : TimestampBlockSettings) (ts currentLine : String) :
    Option (String × Nat) :=
  if lineHasTimestamp s currentLine then none
  else
    let lw := leadingWS currentLine
    let content := trimStartStr currentLine
    match matchListMarker content with
    | some marker =>
      let stamp := createFullTimestamp s ts
      some (lw ++ marker ++ stamp ++ content.drop marker.length,
            lw.length + marker.length + stamp.length)
    | none =>
      if trimStr currentLine = "" then
        let stamp := createFullTimestamp s ts
        some (lw ++ stamp, lw.length + stamp.length)
      else
        let stamp := createFullTimestamp s ts
        some (lw ++ stamp ++ content, lw.length + stamp.length)

/-- The text of the line after `insertTimestampOnLine` ran against it:
either the rewritten text, or the original line when the function
returned without writing. -/
def lineAfterRewrite (s : TimestampBlockSettings) (ts currentLine : String) : String :=
  match insertTimestampOnLine s ts currentLine with
  | some r => r.1
  | none => currentLine

/-- src/main.ts `insertTimestampOnNewLine` (the keydown-based entry
point), as the pure rewrite of the caret line, same conventions as
`insertTimestampOnLine`. -/
def insertTimestampOnNewLine (s : TimestampBlockSettings) (ts currentLine : String) :
    Option (String × Nat) :=
  let isEmptyLine := trimStr currentLine = ""
  let lw := leadingWS currentLine
  let stamp := createFullTimestamp s ts
  if isEmptyLine ∧ s.includeOnEmptyLine = false then
    some (lw ++ stamp, lw.length + stamp.length)
  else if ¬ isEmptyLine then
    if lineHasTimestamp s currentLine then none
    else
      let content := trimStartStr currentLine
      let timestampedLine :=
        match matchListMarker content with
        | some marker => lw ++ marker ++ createTimestampedLine s ts (content.drop marker.length)
        | none => lw ++ createTimestampedLine s ts content
      some (timestampedLine, (indexOfFrom timestampedLine stamp 0).toNat + stamp.length)
  else
    some (lw ++ stamp, lw.length + stamp.length)

/-- A document: the list of the editor buffer's lines. -/
abbrev Doc := List String

/-- `editor.getLine(i)`, with "" as the neutral out-of-range value. -/
def getLine (doc : Doc) (i : Nat) : String :=
  doc.getD i ""

/-- `editor.lineCount()`. -/
def lineCount (doc : Doc) : Nat :=
  doc.length

/-- Whether a `blockIdentifier` value activates the header strategy
(src/block-detector.ts tests `identifier === 'header' || identifier === 'both'`). -/
def wantsHeader : BlockIdentifier → Bool
  | .header => true
  | .both => true
  | .fence => false

/-- Whether a `blockIdentifier` value activates the fence strategy. -/
def wantsFence : BlockIdentifier → Bool
  | .fence => true
  | .both => true
  | .header => false

/-- The generic header regex `/^#{1,6}\s/` of src/block-detector.ts,
generalized over the maximal hash count so that it also covers the
`^#{1,level}\s` regex built in `findHeaderBoundaries`: with `n` leading
`#` characters, the regex matches exactly when `1 ≤ n ≤ maxLevel` and the
character right after the hash run is whitespace (backtracking over the
hash count cannot help, because every shorter run is followed by `#`). -/
def headerPrefixTest (maxLevel : Nat) (line : String) : Bool :=
  let n := (line.data.takeWhile (fun c => c = '#')).length
  decide (1 ≤ n ∧ n ≤ maxLevel) &&
    (match line.data.drop n with
     | c :: _ => c.isWhitespace
     | [] => false)

/-- `/^#{1,6}\s/` applied to a line. -/
def isAnyHeader (line : String) : Bool :=
  headerPrefixTest 6 line

/-- The header level extracted in `findHeaderBoundaries` via
`lineText.match(/^(#{1,6})/)`: the length of the (at most 6) leading `#`
run, with the source's fallback 1 when the match fails (no leading `#`). -/
def headerLevelOf (line : String) : Nat :=
  let n := min ((line.data.takeWhile (fun c => c = '#')).length) 6
  if n = 0 then 1 else n

/-- src/block-detector.ts `matchesHeaderPattern`, simple branch: the
trimmed, lowercased line compared with the trimmed, lowercased
`headerText`. -/
def simpleHeaderMatch (s : TimestampBlockSettings) (lineText : String) : Bool :=
  decide (lowerStr (trimStr lineText) = lowerStr (trimStr s.headerText))

/-- src/block-detector.ts `matchesHeaderPattern`: with
`useAdvancedHeaderPattern` on, run the compiled regex; when compilation
throws (`eng s.headerPattern = none`), fall back to the simple branch. -/
def matchesHeaderPattern (eng : String → Option (String → Bool))
    (s : TimestampBlockSettings) (lineText : String) : Bool :=
  if s.useAdvancedHeaderPattern then
    match eng s.headerPattern with
    | some test => test lineText
    | none => simpleHeaderMatch s lineText
  else simpleHeaderMatch s lineText

/-- src/block-detector.ts `isUnderTimestampHeader`: scan upward from
`line - 1`; the first structural header decides (member iff it matches
the configured pattern); no header above means not a member. -/
def isUnderTimestampHeader (eng : String → Option (String → Bool))
    (s : TimestampBlockSettings) (doc : Doc) : Nat → Bool
  | 0 => false
  | l + 1 =>
    let lineText := getLine doc l
    if isAnyHeader lineText then matchesHeaderPattern eng s lineText
    else isUnderTimestampHeader eng s doc l

/-- The fence opener token: triple backtick concatenated with the
configured fence language. -/
def fenceOpen (s : TimestampBlockSettings) : String :=
  "```" ++ s.fenceLanguage

/-- One iteration of the fence scan of `isInTimestampFence`: state is
`(inFence, fenceStartLine)`, with `-1` as the source's initial sentinel. -/
def fenceStepA (s : TimestampBlockSettings) (doc : Doc) (st : Bool × Int) (i : Nat) :
    Bool × Int :=
  let t := trimStr (getLine doc i)
  if st.1 = false ∧ strStartsWith t (fenceOpen s) = true then (true, (i : Int))
  else if st.1 = true ∧ t = "```" ∧ st.2 < (i : Int) then (false, st.2)
  else st

/-- The scan state of `isInTimestampFence` after processing lines
`0, …, n-1`. -/
def fenceScanA (s : TimestampBlockSettings) (doc : Doc) (n : Nat) : Bool × Int :=
  (List.range n).foldl (fenceStepA s doc) (false, -1)

/-- src/block-detector.ts `isInTimestampFence`: the `inFence` flag after
scanning lines `0, …, line`. -/
def isInTimestampFence (s : TimestampBlockSettings) (doc : Doc) (line : Nat) : Bool :=
  (fenceScanA s doc (line + 1)).1

/-- One iteration of the first loop of `findFenceBoundaries`; unlike
`fenceStepA` it also resets `startLine` to `-1` on a close. -/
def fenceStepB (s : TimestampBlockSettings) (doc : Doc) (st : Bool × Int) (i : Nat) :
    Bool × Int :=
  let t := trimStr (getLine doc i)
  if st.1 = false ∧ strStartsWith t (fenceOpen s) = true then (true, (i : Int))
  else if st.1 = true ∧ t = "```" ∧ st.2 < (i : Int) then (false, -1)
  else st

/-- The scan state of `findFenceBoundaries` after processing lines
`0, …, n-1`. -/
def fenceScanB (s : TimestampBlockSettings) (doc : Doc) (n : Nat) : Bool × Int :=
  (List.range n).foldl (fenceStepB s doc) (false, -1)

/-- `BlockBoundaries` of src/types.ts: `startLine`/`endLine` are the
source's `start`/`end` fields (inclusive content span), `kind` its
`type` field. -/
inductive BlockKind where
  | header
  | fence
deriving DecidableEq

structure BlockBoundaries where
  startLine : Nat
  endLine : Nat
  kind : BlockKind
deriving DecidableEq

/-- src/block-detector.ts `findFenceBoundaries`: run the fence scan
through `line`; if not inside a fence, `none`; otherwise the content span
from the opener's successor to the line before the next closer, or to the
document's last line when no closer follows. -/
def findFenceBoundaries (s : TimestampBlockSettings) (doc : Doc) (line : Nat) :
    Option BlockBoundaries :=
  let st := fenceScanB s doc (line + 1)
  if st.1 = false ∨ st.2 = -1 then none
  else
    let n := lineCount doc
    match (List.range' (line + 1) (n - (line + 1))).find?
        (fun i => decide (trimStr (getLine doc i) = "```")) with
    | some i => some ⟨st.2.toNat + 1, i - 1, .fence⟩
    | none => some ⟨st.2.toNat + 1, n - 1, .fence⟩

/-- The backward scan of `findHeaderBoundaries`: the line index of the
first structural header above the given line when it matches the
configured pattern; `none` both when a non-matching header is hit first
and when no header exists above (the source returns null in both cases). -/
def headerScanUp (eng : String → Option (String → Bool))
    (s : TimestampBlockSettings) (doc : Doc) : Nat → Option Nat
  | 0 => none
  | l + 1 =>
    let lineText := getLine doc l
    if isAnyHeader lineText then
      if matchesHeaderPattern eng s lineText then some l else none
    else headerScanUp eng s doc l

/-- src/block-detector.ts `findHeaderBoundaries`. -/
def findHeaderBoundaries (eng : String → Option (String → Bool))
    (s : TimestampBlockSettings) (doc : Doc) (line : Nat) : Option BlockBoundaries :=
  match headerScanUp eng s doc line with
  | none => none
  | some sl =>
    let level := headerLevelOf (getLine doc sl)
    let n := lineCount doc
    match (List.range' (line + 1) (n - (line + 1))).find?
        (fun i => headerPrefixTest level (getLine doc i)) with
    | some i => some ⟨sl + 1, i - 1, .header⟩
    | none => some ⟨sl + 1, n - 1, .header⟩

/-- src/block-detector.ts `isInTimestampBlock`: membership is the OR of
the strategies activated by `blockIdentifier`. -/
def isInTimestampBlock (eng : String → Option (String → Bool))
    (s : TimestampBlockSettings) (doc : Doc) (line : Nat) : Bool :=
  (wantsHeader s.blockIdentifier && isUnderTimestampHeader eng s doc line) ||
    (wantsFence s.blockIdentifier && isInTimestampFence s doc line)

/-- src/block-detector.ts `findBlockBoundaries`: fence first, then
header. -/
def findBlockBoundaries (eng : String → Option (String → Bool))
    (s : TimestampBlockSettings) (doc : Doc) (line : Nat) : Option BlockBoundaries :=
  match (if wantsFence s.blockIdentifier then findFenceBoundaries s doc line else none) with
  | some b => some b
  | none =>
    if wantsHeader s.blockIdentifier then findHeaderBoundaries eng s doc line else none

/-- A regex engine on which every pattern fails to compile; used to
instantiate the opaque engine parameter where the pattern is irrelevant
(simple matching) or deliberately invalid. -/
def regexEngineNone : String → Option (String → Bool) := fun _ => none

/-- Default settings switched to fence detection. -/
def fenceSettings : TimestampBlockSettings :=
  { DEFAULT_SETTINGS with blockIdentifier := .fence }

/-- Default settings with the advanced header pattern enabled and an
invalid pattern configured. -/
def badPatternSettings : TimestampBlockSettings :=
  { DEFAULT_SETTINGS with useAdvancedHeaderPattern := true, headerPattern := "(" }

/-- Default settings with an empty timestamp front decoration. -/
def noPreSettings : TimestampBlockSettings :=
  { DEFAULT_SETTINGS with timestampPre := "" }

/-- The five-line header-mode example document of the specification. -/
def sampleHeaderDoc : Doc := ["## Log", "a", "b", "## Other", "c"]

/-- An unterminated fence-mode document. -/
def openFenceDoc : Doc := ["```timestamp-log", "x", "y"]

/-- A document that consists of a single fence opener line. -/
def openerOnlyDoc : Doc := ["```timestamp-log"]

/-- Claim C9: with an empty configured timestamp front decoration,
`lineHasTimestamp` is false on every input line. -/
theorem claim9_empty_pre_disables (s : TimestampBlockSettings) (line : String)
    (h : s.timestampPre = "") : lineHasTimestamp s line = false := by
  simp [lineHasTimestamp, h]

theorem claim9_witness :
    noPreSettings.timestampPre = "" ∧
      lineHasTimestamp noPreSettings "[2024-01-15 14:30] x" = false :=
  ⟨rfl, claim9_empty_pre_disables noPreSettings "[2024-01-15 14:30] x" rfl⟩

/-- Claim C10: with `useAdvancedHeaderPattern` off, a heading line matches
the configured header text exactly when the two strings are equal after
trimming surrounding whitespace and lowercasing both. -/
theorem claim10_simple_match_iff (eng : String → Option (String → Bool))
    (s : TimestampBlockSettings) (lineText : String)
    (h : s.useAdvancedHeaderPattern = false) :
    matchesHeaderPattern eng s lineText = true ↔
      lowerStr (trimStr lineText) = lowerStr (trimStr s.headerText) := by
  simp [matchesHeaderPattern, h, simpleHeaderMatch]

theorem claim10_witness :
    DEFAULT_SETTINGS.useAdvancedHeaderPattern = false ∧
      (matchesHeaderPattern regexEngineNone DEFAULT_SETTINGS "##  LOG" = true ↔
        lowerStr (trimStr "##  LOG") = lowerStr (trimStr DEFAULT_SETTINGS.headerText)) :=
  ⟨rfl, claim10_simple_match_iff regexEngineNone DEFAULT_SETTINGS "##  LOG" rfl⟩

/-- Claim C5: a line already carrying a timestamp is left unchanged by the
line rewrite: the function performs no write, and the resulting line text
equals the input exactly. -/
theorem claim5_idempotence (s : TimestampBlockSettings) (ts line : String)
    (h : lineHasTimestamp s line = true) :
    insertTimestampOnLine s ts line = none ∧ lineAfterRewrite s ts line = line := by
  constructor
  · simp [insertTimestampOnLine, h]
  · simp [lineAfterRewrite, insertTimestampOnLine, h]

theorem claim5_witness :
    lineHasTimestamp DEFAULT_SETTINGS "[2024-01-15 14:30] x" = true ∧
      insertTimestampOnLine DEFAULT_SETTINGS "STAMP" "[2024-01-15 14:30] x" = none ∧
      lineAfterRewrite DEFAULT_SETTINGS "STAMP" "[2024-01-15 14:30] x" =
        "[2024-01-15 14:30] x" :=
  ⟨by decide,
   (claim5_idempotence DEFAULT_SETTINGS "STAMP" "[2024-01-15 14:30] x" (by decide)).1,
   (claim5_idempotence DEFAULT_SETTINGS "STAMP" "[2024-01-15 14:30] x" (by decide)).2⟩

/-- Claim C6: on a line with a leading list marker (and no existing
timestamp), the stamp is inserted between the marker and the remaining
content, and the caret lands at the end of the inserted stamp. -/
theorem claim6_marker_precedence (s : TimestampBlockSettings) (ts line marker : String)
    (h1 : lineHasTimestamp s line = false)
    (h2 : matchListMarker (trimStartStr line) = some marker) :
    insertTimestampOnLine s ts line =
      some (leadingWS line ++ marker ++ createFullTimestamp s ts ++
              (trimStartStr line).drop marker.length,
            (leadingWS line).length + marker.length + (createFullTimestamp s ts).length) := by
  simp [insertTimestampOnLine, h1, h2]

theorem claim6_witness :
    insertTimestampOnLine DEFAULT_SETTINGS "STAMP" "- hello" =
      some ("- [STAMP] hello", 10) := by
  have h := claim6_marker_precedence DEFAULT_SETTINGS "STAMP" "- hello" "- "
    (by decide) (by decide)
  rw [h]
  decide

/-- Claim C3: the code stamps an empty line even though the empty-line
flag `includeOnEmptyLine` is off, in both rewrite entry points
(`insertTimestampOnLine` never consults the flag; the flag-off branch of
`insertTimestampOnNewLine` writes the stamp despite its own comment),
contradicting the flag's documented meaning. -/
theorem claim3_empty_line_stamped_despite_flag :
    DEFAULT_SETTINGS.includeOnEmptyLine = false ∧
      insertTimestampOnLine DEFAULT_SETTINGS "2024-01-15 14:30" "" =
        some ("[2024-01-15 14:30] ", 19) ∧
      insertTimestampOnNewLine DEFAULT_SETTINGS "2024-01-15 14:30" "" =
        some ("[2024-01-15 14:30] ", 19) := by
  decide

/-- Claim C1 counterexample: on the specification's example document the
"## Other" heading line itself (line 3) is classified as inside the
"## Log" block, because the upward scan starts at the line above the
queried line and finds "## Log"; the claim asserts false there. -/
theorem claim1_counterexample :
    isInTimestampBlock regexEngineNone DEFAULT_SETTINGS sampleHeaderDoc 3 = true := by
  decide

/-- Claim C1 amended: membership holds for lines 1, 2, and also for
line 3 (the "## Other" heading line, since the scan starts strictly above
the queried line), fails for line 4, and the boundaries for line 1 are
lines 1 through 2 with header kind. -/
theorem claim1_header_region_membership :
    isInTimestampBlock regexEngineNone DEFAULT_SETTINGS sampleHeaderDoc 1 = true ∧
      isInTimestampBlock regexEngineNone DEFAULT_SETTINGS sampleHeaderDoc 2 = true ∧
      isInTimestampBlock regexEngineNone DEFAULT_SETTINGS sampleHeaderDoc 3 = true ∧
      isInTimestampBlock regexEngineNone DEFAULT_SETTINGS sampleHeaderDoc 4 = false ∧
      findBlockBoundaries regexEngineNone DEFAULT_SETTINGS sampleHeaderDoc 1 =
        some ⟨1, 2, .header⟩ := by
  decide

/-- Claim C8: an unterminated fence keeps every following line in-region,
and its boundaries extend to the last line index of the document. -/
theorem claim8_unterminated_fence :
    isInTimestampBlock regexEngineNone fenceSettings openFenceDoc 1 = true ∧
      isInTimestampBlock regexEngineNone fenceSettings openFenceDoc 2 = true ∧
      findBlockBoundaries regexEngineNone fenceSettings openFenceDoc 1 =
        some ⟨1, 2, .fence⟩ ∧
      findBlockBoundaries regexEngineNone fenceSettings openFenceDoc 2 =
        some ⟨1, 2, .fence⟩ ∧
      lineCount openFenceDoc - 1 = 2 := by
  decide

/-- Claim C4: with a non-empty front and back decoration configured,
`lineHasTimestamp` can return true only when the line, leading whitespace
stripped, starts with the front decoration and the back decoration occurs
again within the first 50 characters counted after the front decoration's
end. -/
theorem claim4_hasTimestamp_necessary_conditions (s : TimestampBlockSettings)
    (line : String) (hpre : s.timestampPre ≠ "") (hsuf : s.timestampSuf ≠ "")
    (h : lineHasTimestamp s line = true) :
    strStartsWith (trimStartStr line) s.timestampPre = true ∧
      ∃ j : Nat, s.timestampPre.length < j ∧ j < s.timestampPre.length + 50 ∧
        s.timestampSuf.data.isPrefixOf ((trimStartStr line).data.drop j) = true := by
  simp only [lineHasTimestamp] at h
  rw [if_neg hpre] at h
  by_cases hs : strStartsWith (trimStartStr line) s.timestampPre = false
  · rw [if_pos hs] at h
    exact absurd h (by simp)
  · rw [if_neg hs] at h
    rw [if_neg hsuf] at h
    refine ⟨by simpa using hs, ?_⟩
    have h' := of_decide_eq_true h
    obtain ⟨hgt, hlt⟩ := h'
    simp only [indexOfFrom] at hgt hlt
    rw [if_neg hsuf] at hgt hlt
    cases hfind : (List.range ((trimStartStr line).length + 1)).find?
        (fun k => decide (s.timestampPre.length ≤ k ∧
          s.timestampSuf.data.isPrefixOf ((trimStartStr line).data.drop k) = true)) with
    | none =>
      rw [hfind] at hgt
      simp at hgt
      omega
    | some k =>
      rw [hfind] at hgt hlt
      simp only [] at hgt hlt
      have hk0 := List.find?_some hfind
      simp only [decide_eq_true_eq] at hk0
      refine ⟨k, ?_, ?_, hk0.2⟩
      · exact_mod_cast hgt
      · have hk50 : k < 50 := by exact_mod_cast hlt
        omega

theorem claim4_witness :
    DEFAULT_SETTINGS.timestampPre ≠ "" ∧ DEFAULT_SETTINGS.timestampSuf ≠ "" ∧
      lineHasTimestamp DEFAULT_SETTINGS "[2024-01-15 14:30] x" = true ∧
      (strStartsWith (trimStartStr "[2024-01-15 14:30] x") DEFAULT_SETTINGS.timestampPre = true ∧
        ∃ j : Nat, DEFAULT_SETTINGS.timestampPre.length < j ∧
          j < DEFAULT_SETTINGS.timestampPre.length + 50 ∧
          DEFAULT_SETTINGS.timestampSuf.data.isPrefixOf
            ((trimStartStr "[2024-01-15 14:30] x").data.drop j) = true) :=
  ⟨by decide, by decide, by decide,
   claim4_hasTimestamp_necessary_conditions DEFAULT_SETTINGS "[2024-01-15 14:30] x"
     (by decide) (by decide) (by decide)⟩

/-- On pattern-compile failure the header matcher equals its simple
branch. -/
theorem matchesHeaderPattern_fallback_eq (eng : String → Option (String → Bool))
    (s : TimestampBlockSettings) (t : String)
    (hadv : s.useAdvancedHeaderPattern = true) (hfail : eng s.headerPattern = none) :
    matchesHeaderPattern eng s t = simpleHeaderMatch s t := by
  simp [matchesHeaderPattern, hadv, hfail]

/-- Turning the advanced flag off selects the simple branch, which reads
only `headerText`. -/
theorem matchesHeaderPattern_simple_eq (eng : String → Option (String → Bool))
    (s : TimestampBlockSettings) (t : String) :
    matchesHeaderPattern eng { s with useAdvancedHeaderPattern := false } t =
      simpleHeaderMatch s t := rfl

/-- Header membership is unchanged by replacing a failing advanced
pattern with simple matching. -/
theorem isUnderTimestampHeader_fallback (eng : String → Option (String → Bool))
    (s : TimestampBlockSettings) (doc : Doc)
    (hadv : s.useAdvancedHeaderPattern = true) (hfail : eng s.headerPattern = none) :
    ∀ line, isUnderTimestampHeader eng s doc line =
      isUnderTimestampHeader eng { s with useAdvancedHeaderPattern := false } doc line := by
  intro line
  induction line with
  | zero => rfl
  | succ l ih =>
    simp only [isUnderTimestampHeader]
    rw [matchesHeaderPattern_fallback_eq eng s (getLine doc l) hadv hfail, ih]
    rfl

/-- The backward header scan is unchanged by replacing a failing advanced
pattern with simple matching. -/
theorem headerScanUp_fallback (eng : String → Option (String → Bool))
    (s : TimestampBlockSettings) (doc : Doc)
    (hadv : s.useAdvancedHeaderPattern = true) (hfail : eng s.headerPattern = none) :
    ∀ line, headerScanUp eng s doc line =
      headerScanUp eng { s with useAdvancedHeaderPattern := false } doc line := by
  intro line
  induction line with
  | zero => rfl
  | succ l ih =>
    simp only [headerScanUp]
    rw [matchesHeaderPattern_fallback_eq eng s (getLine doc l) hadv hfail, ih]
    rfl

/-- Header boundary resolution is unchanged by replacing a failing
advanced pattern with simple matching. -/
theorem findHeaderBoundaries_fallback (eng : String → Option (String → Bool))
    (s : TimestampBlockSettings) (doc : Doc) (line : Nat)
    (hadv : s.useAdvancedHeaderPattern = true) (hfail : eng s.headerPattern = none) :
    findHeaderBoundaries eng s doc line =
      findHeaderBoundaries eng { s with useAdvancedHeaderPattern := false } doc line := by
  unfold findHeaderBoundaries
  rw [headerScanUp_fallback eng s doc hadv hfail line]

/-- Claim C7: when the heading matcher is pattern-based and the pattern
fails to compile, classification falls back to the literal header-text
comparison: the matcher equals the simple branch, and both membership and
boundary resolution coincide with the same settings run in simple mode. -/
theorem claim7_pattern_fallback (eng : String → Option (String → Bool))
    (s : TimestampBlockSettings) (doc : Doc) (line : Nat) (t : String)
    (hadv : s.useAdvancedHeaderPattern = true) (hfail : eng s.headerPattern = none) :
    matchesHeaderPattern eng s t = simpleHeaderMatch s t ∧
      isInTimestampBlock eng s doc line =
        isInTimestampBlock eng { s with useAdvancedHeaderPattern := false } doc line ∧
      findBlockBoundaries eng s doc line =
        findBlockBoundaries eng { s with useAdvancedHeaderPattern := false } doc line := by
  refine ⟨matchesHeaderPattern_fallback_eq eng s t hadv hfail, ?_, ?_⟩
  · unfold isInTimestampBlock
    rw [isUnderTimestampHeader_fallback eng s doc hadv hfail line]
    rfl
  · unfold findBlockBoundaries
    rw [findHeaderBoundaries_fallback eng s doc line hadv hfail]
    rfl

theorem claim7_witness :
    matchesHeaderPattern regexEngineNone badPatternSettings "## Log" =
        simpleHeaderMatch badPatternSettings "## Log" ∧
      isInTimestampBlock regexEngineNone badPatternSettings sampleHeaderDoc 1 =
        isInTimestampBlock regexEngineNone
          { badPatternSettings with useAdvancedHeaderPattern := false } sampleHeaderDoc 1 ∧
      findBlockBoundaries regexEngineNone badPatternSettings sampleHeaderDoc 1 =
        findBlockBoundaries regexEngineNone
          { badPatternSettings with useAdvancedHeaderPattern := false } sampleHeaderDoc 1 :=
  claim7_pattern_fallback regexEngineNone badPatternSettings sampleHeaderDoc 1 "## Log"
    rfl rfl

/-- A line read past the end of the document is the neutral "". -/
theorem getLine_oob (doc : Doc) (i : Nat) (h : doc.length ≤ i) : getLine doc i = "" :=
  doc.getD_eq_default "" h

/-- The fence opener token never occurs on an empty line. -/
theorem strStartsWith_empty_fenceOpen (s : TimestampBlockSettings) :
    strStartsWith "" (fenceOpen s) = false := by
  unfold strStartsWith fenceOpen
  rw [String.data_append]
  have h3 : "```".data = ['`', '`', '`'] := by decide
  rw [h3]
  rfl

/-- When the boundary fence scan reports being inside a fence, the stored
start line is an actual line index below the scanned bound whose trimmed
text starts with the fence opener. -/
theorem fenceScanB_open (s : TimestampBlockSettings) (doc : Doc) :
    ∀ n, (fenceScanB s doc n).1 = true →
      ∃ j : Nat, (fenceScanB s doc n).2 = (j : Int) ∧ j < n ∧
        strStartsWith (trimStr (getLine doc j)) (fenceOpen s) = true := by
  intro n
  induction n with
  | zero =>
    intro h
    exact absurd h (by simp [fenceScanB])
  | succ n ih =>
    have hrw : fenceScanB s doc (n + 1) = fenceStepB s doc (fenceScanB s doc n) n := by
      simp [fenceScanB, List.range_succ]
    rw [hrw]
    simp only [fenceStepB]
    split_ifs with h1 h2
    · intro _
      exact ⟨n, rfl, Nat.lt_succ_self n, h1.2⟩
    · intro h
      exact absurd h (by simp)
    · intro h
      obtain ⟨j, hj1, hj2, hj3⟩ := ih h
      exact ⟨j, hj1, Nat.lt_succ_of_lt hj2, hj3⟩

/-- Every region resolved by `findFenceBoundaries` spans at least from
its start to the line before it (inclusive encoding of a possibly empty
span). -/
theorem findFenceBoundaries_span (s : TimestampBlockSettings) (doc : Doc) (line : Nat)
    (b : BlockBoundaries) (h : findFenceBoundaries s doc line = some b) :
    b.startLine ≤ b.endLine + 1 := by
  simp only [findFenceBoundaries] at h
  split_ifs at h with hc
  have h1 : (fenceScanB s doc (line + 1)).1 = true := by
    cases hb : (fenceScanB s doc (line + 1)).1 with
    | false => exact absurd (Or.inl hb) hc
    | true => rfl
  obtain ⟨j, hj, hjlt, hjopen⟩ := fenceScanB_open s doc (line + 1) h1
  have hjdoc : j < doc.length := by
    by_contra hge
    push_neg at hge
    rw [getLine_oob doc j hge] at hjopen
    have : trimStr "" = "" := rfl
    rw [this, strStartsWith_empty_fenceOpen] at hjopen
    exact absurd hjopen (by simp)
  rw [hj] at h
  rw [Int.toNat_ofNat] at h
  split at h
  · rename_i i hfind
    have hmem := List.mem_of_find?_eq_some hfind
    rw [List.mem_range'_1] at hmem
    injection h with h'
    subst h'
    show j + 1 ≤ i - 1 + 1
    omega
  · injection h with h'
    subst h'
    show j + 1 ≤ lineCount doc - 1 + 1
    simp only [lineCount]
    omega

/-- A successful backward header scan lands strictly above the queried
line, on a structural header line. -/
theorem headerScanUp_lt (eng : String → Option (String → Bool))
    (s : TimestampBlockSettings) (doc : Doc) :
    ∀ line sl, headerScanUp eng s doc line = some sl →
      sl < line ∧ isAnyHeader (getLine doc sl) = true := by
  intro line
  induction line with
  | zero =>
    intro sl h
    exact absurd h (by simp [headerScanUp])
  | succ l ih =>
    intro sl h
    simp only [headerScanUp] at h
    split_ifs at h with h1 h2
    · injection h with h'
      subst h'
      exact ⟨Nat.lt_succ_self _, h1⟩
    · obtain ⟨ha, hb⟩ := ih sl h
      exact ⟨Nat.lt_succ_of_lt ha, hb⟩

/-- Every region resolved by `findHeaderBoundaries` spans at least from
its start to the line before it. -/
theorem findHeaderBoundaries_span (eng : String → Option (String → Bool))
    (s : TimestampBlockSettings) (doc : Doc) (line : Nat) (b : BlockBoundaries)
    (h : findHeaderBoundaries eng s doc line = some b) :
    b.startLine ≤ b.endLine + 1 := by
  simp only [findHeaderBoundaries] at h
  split at h
  · exact absurd h (by simp)
  · rename_i sl hsc
    obtain ⟨hlt, hhdr⟩ := headerScanUp_lt eng s doc line sl hsc
    have hdoc : sl < doc.length := by
      by_contra hge
      push_neg at hge
      rw [getLine_oob doc sl hge] at hhdr
      exact absurd hhdr (by decide)
    split at h
    · rename_i i hfind
      have hmem := List.mem_of_find?_eq_some hfind
      rw [List.mem_range'_1] at hmem
      injection h with h'
      subst h'
      show sl + 1 ≤ i - 1 + 1
      omega
    · injection h with h'
      subst h'
      show sl + 1 ≤ lineCount doc - 1 + 1
      simp only [lineCount]
      omega

/-- Claim C2 counterexample: a document consisting of a single fence
opener line yields, for line 0, the non-null fence region
`{start := 1, end := 0}`, which violates `start ≤ end`. -/
theorem claim2_counterexample :
    findBlockBoundaries regexEngineNone fenceSettings openerOnlyDoc 0 =
        some ⟨1, 0, .fence⟩ ∧ ¬ (1 : Nat) ≤ 0 := by
  decide

/-- Claim C2 amended: every non-null region returned by
`findBlockBoundaries` satisfies `start ≤ end + 1`: the span is valid but
possibly zero-length, a zero-length span being encoded with
`end = start - 1` in the inclusive convention. -/
theorem claim2_region_span_bound (eng : String → Option (String → Bool))
    (s : TimestampBlockSettings) (doc : Doc) (line : Nat) (b : BlockBoundaries)
    (h : findBlockBoundaries eng s doc line = some b) :
    b.startLine ≤ b.endLine + 1 := by
  unfold findBlockBoundaries at h
  split at h
  · rename_i b' hf
    injection h with h'
    subst h'
    split_ifs at hf with hw
    exact findFenceBoundaries_span s doc line b' hf
  · split_ifs at h with hw
    exact findHeaderBoundaries_span eng s doc line b h

theorem claim2_region_span_bound_witness :
    findBlockBoundaries regexEngineNone fenceSettings openFenceDoc 1 =
        some ⟨1, 2, .fence⟩ ∧ (1 : Nat) ≤ 2 + 1 :=
  ⟨by decide,
   claim2_region_span_bound regexEngineNone fenceSettings openFenceDoc 1
     ⟨1, 2, .fence⟩ (by decide)⟩
